import Mathlib

/-!
Verification of the dbx MongoDB VPS provisioning CLI.

Shallow embedding of the data model and the operations of:
  * `src/state/schema.ts`    (InstanceMetadata, DbxState, validateState)
  * `src/state/manager.ts`   (readState / writeState and point operations)
  * `src/state/remote.ts`    (readRemoteState / writeRemoteState)
  * `src/provision/reconciliation.ts` (reconcileInstanceState)
  * `src/provision/port-allocator.ts` (validatePort / findNextPort)
  * `src/provision/mongodb.ts` (waitForMongoReady)
  * `src/ssh/client.ts`      (SSHClient.exec, execWithRetry)

Effectful TypeScript code is embedded as pure functions over explicit
state / oracle parameters; JavaScript numbers that hold ports and exit
codes are embedded as `Int`; fallible code returns `Except`.
-/

namespace Dbx

/-- The `InstanceMetadata` from `src/state/schema.ts`: metadata of one
provisioned MongoDB instance.  `lastBackup` is the optional field. -/
structure InstanceMetadata where
  port : Int
  dbName : String
  username : String
  password : String
  rootPassword : String
  volume : String
  containerName : String
  createdAt : String
  lastBackup : Option String
deriving DecidableEq, Repr

/-- The `DbxState` from `src/state/schema.ts`: a mapping from instance key
(`"<project>/<env>"`) to metadata.  JavaScript `Record` iteration order is
insertion order for string keys, so the object is embedded as an
association list. -/
structure DbxState where
  instances : List (String × InstanceMetadata)
deriving DecidableEq, Repr

/-- The `createEmptyState` from `src/state/schema.ts`. -/
def createEmptyState : DbxState := ⟨[]⟩

/-- The `createInstanceKey` from `src/state/schema.ts`. -/
def createInstanceKey (project env : String) : String :=
  project ++ "/" ++ env

/-- Lookup of `state.instances[key]` (JS property access on a `Record`). -/
def lookupKey (s : DbxState) (key : String) : Option InstanceMetadata :=
  (s.instances.find? (fun p => p.1 == key)).map (·.2)

/-- The `state.instances[key] = metadata`: replaces the value in place when the
key is present (JS objects keep the original key position), appends
otherwise. -/
def setKey (s : DbxState) (key : String) (m : InstanceMetadata) : DbxState :=
  if (s.instances.find? (fun p => p.1 == key)).isSome then
    ⟨s.instances.map (fun p => if p.1 == key then (key, m) else p)⟩
  else
    ⟨s.instances ++ [(key, m)]⟩

/-- The `delete state.instances[key]`. -/
def eraseKey (s : DbxState) (key : String) : DbxState :=
  ⟨s.instances.filter (fun p => !(p.1 == key))⟩

/-- The `ReconciliationResult` from `src/provision/reconciliation.ts`. -/
structure ReconciliationResult where
  reconciled : Bool
  action : Option String
  metadata : Option InstanceMetadata
deriving DecidableEq, Repr

/-- The conflict test of `reconcileInstanceState`
(`src/provision/reconciliation.ts` lines 91-94): any of port, container
name or database name differ. -/
def hasConflict (l r : InstanceMetadata) : Bool :=
  l.port != r.port || l.containerName != r.containerName || l.dbName != r.dbName

/-- The `reconcileInstanceState` from `src/provision/reconciliation.ts`,
embedded over explicit local/remote state collections.  `getInstance` /
`getRemoteInstance` become `lookupKey`, `setInstance` / `setRemoteInstance`
become `setKey`, `removeInstance` becomes `eraseKey` (each of those is a
whole-record read-modify-write in `src/state/manager.ts` /
`src/state/remote.ts`).  The live-container probe `isContainerRunning`
(`src/provision/mongodb.ts` lines 229-236) is an oracle
`running : String → Bool` keyed by container name.  Returns the new local
state, the new remote state, and the `ReconciliationResult`. -/
def reconcileInstanceState (localState remoteState : DbxState)
    (project env : String) (running : String → Bool) :
    DbxState × DbxState × ReconciliationResult :=
  let key := createInstanceKey project env
  let localMetadata := lookupKey localState key
  let remoteMetadata := lookupKey remoteState key
  match localMetadata, remoteMetadata with
  -- Case 1: Remote exists, local missing
  | none, some r =>
      (setKey localState key r, remoteState,
        ⟨true, some "copied-remote-to-local", some r⟩)
  -- Case 2: Local exists, remote missing
  | some l, none =>
      if running l.containerName then
        (localState, setKey remoteState key l,
          ⟨true, some "copied-local-to-remote", some l⟩)
      else
        (eraseKey localState key, remoteState,
          ⟨true, some "removed-stale-local", none⟩)
  -- Case 3: Both exist - check for conflicts
  | some l, some r =>
      if hasConflict l r then
        (setKey localState key r, remoteState,
          ⟨true, some "resolved-conflict-from-remote", some r⟩)
      else
        (localState, remoteState, ⟨false, none, some l⟩)
  -- Case 4: Neither exists
  | none, none =>
      (localState, remoteState, ⟨false, none, none⟩)

/-- A concrete instance record used to evaluate the theorems below on
closed inputs. -/
def sampleMeta : InstanceMetadata :=
  { port := 27018
    dbName := "app_dev"
    username := "app_dev_user"
    password := "pw"
    rootPassword := "rootpw"
    volume := "dbx_app_dev_data"
    containerName := "dbx_app_dev"
    createdAt := "2025-01-01T00:00:00.000Z"
    lastBackup := none }

/-! ## Port allocator (`src/provision/port-allocator.ts`) -/

/-- The `MIN_PORT` from `src/provision/port-allocator.ts`. -/
def MIN_PORT : Int := 1024

/-- The `MAX_PORT` from `src/provision/port-allocator.ts`. -/
def MAX_PORT : Int := 65535

/-- The `HIGH_PORT_WARNING` from `src/provision/port-allocator.ts`. -/
def HIGH_PORT_WARNING : Int := 65500

/-- The `PortAllocationError` from `src/provision/port-allocator.ts`. -/
structure PortAllocationError where
  message : String
deriving DecidableEq, Repr

/-- The `validatePort` from `src/provision/port-allocator.ts`.  Throws below
`MIN_PORT` and above `MAX_PORT`; at or above `HIGH_PORT_WARNING` it only
prints an advisory warning and succeeds — the returned `Bool` records
whether that warning fired. -/
def validatePort (port : Int) : Except PortAllocationError Bool :=
  if port < MIN_PORT then
    .error ⟨"Port allocation failed: port is below minimum valid port"⟩
  else if port > MAX_PORT then
    .error ⟨"Port allocation failed: port exceeds maximum port"⟩
  else
    .ok (decide (HIGH_PORT_WARNING ≤ port))

/-- The `getUsedPortsFromLocalState`: the ports recorded in one collection
(the source builds a `Set`; only membership is ever consulted). -/
def getUsedPortsFromLocalState (localState : DbxState) : List Int :=
  localState.instances.map (fun p => p.2.port)

/-- The `getAllUsedPorts`: union of the ports of both collections (remote is
optional in the source). -/
def getAllUsedPorts (localState : DbxState) (remoteState : Option DbxState) :
    List Int :=
  getUsedPortsFromLocalState localState ++
    (match remoteState with
     | some r => getUsedPortsFromLocalState r
     | none => [])

/-- The `while (port <= MAX_PORT)` scan of `findNextPort`: first port at or
above `port` that is not in `used`, `none` when the range is exhausted. -/
def scanPort (used : List Int) (port : Int) : Option Int :=
  if _h : port ≤ MAX_PORT then
    if port ∈ used then scanPort used (port + 1) else some port
  else none
termination_by (MAX_PORT + 1 - port).toNat
decreasing_by simp only [MAX_PORT] at *; omega

/-- The `findNextPort` from `src/provision/port-allocator.ts`: validates the
base port, unions the recorded ports of both collections, scans upward and
re-validates the found port (the re-validation can only fire the advisory
warning). -/
def findNextPort (localState : DbxState) (basePort : Int)
    (remoteState : Option DbxState) : Except PortAllocationError Int := do
  let _ ← validatePort basePort
  let usedPorts := getAllUsedPorts localState remoteState
  match scanPort usedPorts basePort with
  | some port => do
      let _ ← validatePort port
      pure port
  | none =>
      throw ⟨"No available ports: all ports from basePort to 65535 are in use"⟩

/-- Whether an `Except` value is a success. -/
def exceptIsOk {ε α : Type} : Except ε α → Bool
  | .ok _ => true
  | .error _ => false

/-! ## SSH executor (`src/ssh/client.ts`, `src/ssh/errors.ts`) -/

/-- The `ExecResult` from `src/ssh/client.ts`. -/
structure ExecResult where
  stdout : String
  stderr : String
  exitCode : Int
deriving DecidableEq, Repr

/-- The error classes of `src/ssh/errors.ts`, embedded as kinds carrying
their message (and, for `SSHCommandError`, the stderr field its
constructor stores). -/
inductive SSHErrorKind
  | conn (msg : String)
  | auth (msg : String)
  | cmd (msg : String) (stderr : String)
  | timeoutErr (msg : String)
  | other (msg : String)
deriving DecidableEq, Repr

/-- Behaviour of the remote channel opened by `SSHClient.exec`: the output
streams close after `elapsed` ms carrying the collected stdout/stderr and
the exit code (`none` models a `null` close code), or they never close, or
the channel-open callback / the stream reports an error after `elapsed`
ms. -/
inductive ChannelBehavior
  | closes (elapsed : Nat) (stdout stderr : String) (code : Option Int)
  | hangs
  | chanErr (msg : String) (elapsed : Nat)
  | streamErr (msg : String) (elapsed : Nat)
deriving DecidableEq, Repr

/-- The `SSHClient.exec` from `src/ssh/client.ts` (lines 205-288), embedded
over the channel behaviour.  The timeout timer started at call time wins
any tie (`setTimeout` at `execTimeout` fires before an event at the same
instant is handled), so a close is only honoured strictly before the
timer.  On close the result is always resolved fully populated — the exit
code (defaulted to 0 when the close code is `null`) is never inspected and
never converted into an error. -/
def execChannel (connected : Bool) (execTimeout : Nat) (b : ChannelBehavior) :
    Except SSHErrorKind ExecResult :=
  if !connected then
    .error (.other "Not connected to VPS. Call connect() first.")
  else
    match b with
    | .closes elapsed o e code =>
        if elapsed < execTimeout then
          .ok ⟨o.trim, e.trim, code.getD 0⟩
        else
          .error (.timeoutErr "Command timed out on VPS")
    | .hangs => .error (.timeoutErr "Command timed out on VPS")
    | .chanErr m elapsed =>
        if elapsed < execTimeout then
          .error (.other ("Failed to execute command: " ++ m))
        else
          .error (.timeoutErr "Command timed out on VPS")
    | .streamErr m elapsed =>
        if elapsed < execTimeout then
          .error (.other ("Stream error during command execution: " ++ m))
        else
          .error (.timeoutErr "Command timed out on VPS")

/-- Whether the streams close strictly before the timer elapses. -/
def closesBefore (b : ChannelBehavior) (t : Nat) : Bool :=
  match b with
  | .closes elapsed _ _ _ => elapsed < t
  | _ => false

/-- Whether the behaviour is free of transport-level errors (channel-open
or stream error events). -/
def noTransportError (b : ChannelBehavior) : Bool :=
  match b with
  | .chanErr _ _ => false
  | .streamErr _ _ => false
  | _ => true

/-- Whether an executor outcome is a raised `SSHCommandError`. -/
def execErrIsCommand : Except SSHErrorKind ExecResult → Bool
  | .error (.cmd _ _) => true
  | _ => false

/-- Whether an executor outcome is a raised `SSHTimeoutError`. -/
def execErrIsTimeout : Except SSHErrorKind ExecResult → Bool
  | .error (.timeoutErr _) => true
  | _ => false

/-! ## Retry wrapper (`execWithRetry`, `src/ssh/client.ts` lines 326-367) -/

/-- Outcome of one simulated connect+exec attempt inside `execWithRetry`. -/
inductive AttemptOutcome
  | ok (r : ExecResult)
  | err (e : SSHErrorKind)
deriving DecidableEq, Repr

/-- The `err instanceof SSHAuthenticationError`. -/
def isAuthKind : SSHErrorKind → Bool
  | .auth _ => true
  | _ => false

/-- The `err instanceof SSHCommandError`. -/
def isCmdKind : SSHErrorKind → Bool
  | .cmd _ _ => true
  | _ => false

/-- The `err instanceof SSHConnectionError`. -/
def isConnKind : SSHErrorKind → Bool
  | .conn _ => true
  | _ => false

/-- The `delays[attempt] || 4000` for `delays = [1000, 2000, 4000]`. -/
def retryDelay (attempt : Nat) : Nat :=
  [1000, 2000, 4000].getD attempt 4000

/-- A simulated attempt sequence: a timeout error on the first attempt,
success afterwards. -/
def timeoutThenOkOutcomes : Nat → AttemptOutcome
  | 0 => .err (.timeoutErr "cmd timed out")
  | _ + 1 => .ok ⟨"ok", "", 0⟩

/-- The `for (attempt = 0; attempt <= maxRetries; attempt++)` loop of
`execWithRetry`: `outcomes n` is what the n-th fresh connect+exec attempt
would produce.  Returns the overall result, the list of delays actually
waited, and the number of attempts performed. -/
def execWithRetryGo (outcomes : Nat → AttemptOutcome) (maxRetries attempt : Nat)
    (delays : List Nat) : Except SSHErrorKind ExecResult × List Nat × Nat :=
  match outcomes attempt with
  | .ok r => (.ok r, delays, attempt + 1)
  | .err e =>
      if isAuthKind e then (.error e, delays, attempt + 1)
      else if isCmdKind e then (.error e, delays, attempt + 1)
      else if _h : attempt < maxRetries then
        execWithRetryGo outcomes maxRetries (attempt + 1)
          (delays ++ [retryDelay attempt])
      else (.error e, delays, attempt + 1)
termination_by maxRetries - attempt
decreasing_by omega

/-- The `execWithRetry` from `src/ssh/client.ts`: up to `maxRetries + 1`
attempts starting with none of the backoff delays performed. -/
def execWithRetry (outcomes : Nat → AttemptOutcome) (maxRetries : Nat) :
    Except SSHErrorKind ExecResult × List Nat × Nat :=
  execWithRetryGo outcomes maxRetries 0 []

/-! ## MongoDB readiness wait (`src/provision/mongodb.ts` lines 150-204) -/

/-- What one iteration of the `waitForMongoReady` poll loop observes:
whether `docker ps` still lists the container, the `docker logs --tail 50`
output fetched when it does not, whether the mongosh ping exec threw
(e.g. hit its 10 s timeout), and the ping's exit code together with the
result of the `ok : 1` regex test on its stdout. -/
structure PollObs where
  running : Bool
  logs : String
  pingThrows : Bool
  pingExit : Int
  pingOkMatch : Bool
deriving DecidableEq, Repr

/-- An error thrown inside the try block of one poll iteration. -/
inductive WaitError
  | crashed (logs : String)
  | pingFailed
deriving DecidableEq, Repr

/-- Overall outcome of `waitForMongoReady`.  `crashed` is the distinct
immediate failure the specification describes for a container that stopped
during the wait. -/
inductive WaitOutcome
  | ready
  | timedOut
  | crashed (logs : String)
deriving DecidableEq, Repr

/-- The try block of one poll iteration of `waitForMongoReady`: a missing
container throws the crashed-container error (after fetching logs), a
throwing ping propagates, otherwise the readiness test
`exitCode === 0 && ok-regex` is returned. -/
def pollOnce (o : PollObs) : Except WaitError Bool :=
  if !o.running then .error (.crashed o.logs)
  else if o.pingThrows then .error .pingFailed
  else .ok (o.pingExit == 0 && o.pingOkMatch)

/-- The `waitForMongoReady` from `src/provision/mongodb.ts`, embedded over the
list of poll observations that fit inside the overall timeout window
(list exhaustion is the `Date.now() - startTime < timeout` loop exit,
i.e. the 30 s timeout).  Mirrors the source control flow exactly: the
`catch` wrapped around the whole try block maps EVERY thrown error —
including the crashed-container error thrown inside the same try block —
to "not ready yet, continue polling". -/
def waitForMongoReady : List PollObs → WaitOutcome
  | [] => .timedOut
  | o :: rest =>
      match pollOnce o with
      | .ok true => .ready
      | .ok false => waitForMongoReady rest
      | .error _ => waitForMongoReady rest

/-- Whether the wait outcome is the distinct crashed-container failure. -/
def waitOutcomeIsCrashed : WaitOutcome → Bool
  | .crashed _ => true
  | _ => false

/-- A poll observation of a container that has stopped running. -/
def stoppedPoll : PollObs :=
  { running := false
    logs := "MongoServerError: exited during startup"
    pingThrows := false
    pingExit := 1
    pingOkMatch := false }

/-! ## State persistence
(`src/state/schema.ts`, `src/state/manager.ts`, `src/state/remote.ts`) -/

/-- JSON values: the image of `JSON.parse` and the argument of
`JSON.stringify`.  The numbers this program stores (ports) are integers.
Textual rendering/parsing is the platform's (`JSON.parse` inverts
`JSON.stringify` on JSON-representable values), so state files are
modelled as holding a JSON value, or junk that fails to parse. -/
inductive Json
  | null
  | bool (b : Bool)
  | num (n : Int)
  | str (s : String)
  | arr (elems : List Json)
  | obj (fields : List (String × Json))

/-- The `StateValidationError` from `src/state/schema.ts`. -/
structure StateValidationError where
  message : String
deriving DecidableEq, Repr

/-- The `requiredFields` list of `validateState`
(`src/state/schema.ts` line 116). -/
def requiredFields : List String :=
  ["port", "dbName", "username", "password", "rootPassword", "volume",
   "containerName", "createdAt"]

/-- The string-typed fields checked by `validateState`
(`src/state/schema.ts` line 128). -/
def stringFields : List String :=
  ["dbName", "username", "password", "rootPassword", "volume",
   "containerName", "createdAt"]

/-- JS property access `o[k]` on an object's field list. -/
def jsonGet (fields : List (String × Json)) (k : String) : Option Json :=
  (fields.find? (fun p => p.1 == k)).map (fun p => p.2)

/-- The `key.split(c)` on the character list of a string (structurally
recursive so concrete keys evaluate). -/
def splitOnChar (c : Char) : List Char → List (List Char)
  | [] => [[]]
  | x :: xs =>
      match splitOnChar c xs with
      | [] => [[]]
      | h :: t => if x = c then [] :: h :: t else (x :: h) :: t

/-- The `validateInstanceKey` from `src/state/schema.ts`:
`key.split('/')` must have exactly two non-empty parts. -/
def validateInstanceKey (key : String) : Except StateValidationError Unit :=
  match (splitOnChar (Char.ofNat 47) key.data).map (fun l => String.mk l) with
  | [a, b] =>
      if a = "" ∨ b = "" then
        .error ⟨"Invalid instance key format: \"" ++ key ++ "\""⟩
      else .ok ()
  | _ => .error ⟨"Invalid instance key format: \"" ++ key ++ "\""⟩

/-- The missing-required-field message of `validateState`. -/
def missingFieldMsg (field key : String) : String :=
  "Missing required field \"" ++ field ++ "\" in instance \"" ++ key ++ "\""

/-- The first field of `requiredFields` that is absent from the record
(the TS presence loop reports the first one). -/
def firstMissingField (fl : List (String × Json)) : Option String :=
  requiredFields.find? (fun f => (jsonGet fl f).isNone)

/-- The first field of `stringFields` whose value is not a string. -/
def firstNonStringField (fl : List (String × Json)) : Option String :=
  stringFields.find? (fun f =>
    match jsonGet fl f with
    | some (.str _) => false
    | _ => true)

/-- Projects a string field after validation has established it is a
string (the `state as DbxState` cast of the source; the default is dead
code). -/
def getStrField (fl : List (String × Json)) (f : String) : String :=
  match jsonGet fl f with
  | some (.str s) => s
  | _ => ""

/-- The per-record checks of `validateState`: the value must be a truthy
object, have every required field, a numeric `port`, string-typed string
fields and an optional string `lastBackup`.  The record the source's final
cast yields is rebuilt from the checked fields (the cast would also keep
unknown extra properties; no later code reads them). -/
def validateInstanceValue (key : String) (v : Json) :
    Except StateValidationError InstanceMetadata :=
  match v with
  | .obj fl =>
      match firstMissingField fl with
      | some f => .error ⟨missingFieldMsg f key⟩
      | none =>
          match jsonGet fl "port" with
          | some (.num n) =>
              match firstNonStringField fl with
              | some f =>
                  .error ⟨"Invalid field \"" ++ f ++ "\" in instance \"" ++
                    key ++ "\": must be a string"⟩
              | none =>
                  match jsonGet fl "lastBackup" with
                  | none =>
                      .ok ⟨n, getStrField fl "dbName", getStrField fl "username",
                        getStrField fl "password", getStrField fl "rootPassword",
                        getStrField fl "volume", getStrField fl "containerName",
                        getStrField fl "createdAt", none⟩
                  | some (.str b) =>
                      .ok ⟨n, getStrField fl "dbName", getStrField fl "username",
                        getStrField fl "password", getStrField fl "rootPassword",
                        getStrField fl "volume", getStrField fl "containerName",
                        getStrField fl "createdAt", some b⟩
                  | some _ =>
                      .error ⟨"Invalid field \"lastBackup\" in instance \"" ++
                        key ++ "\": must be a string if provided"⟩
          | some _ =>
              .error ⟨"Invalid field \"port\" in instance \"" ++ key ++
                "\": must be a number"⟩
          -- unreachable: presence of "port" was established above
          | none => .error ⟨missingFieldMsg "port" key⟩
  | .arr _ =>
      -- arrays pass the `typeof === 'object'` test but have no "port"
      .error ⟨missingFieldMsg "port" key⟩
  | _ => .error ⟨"Invalid instance metadata for \"" ++ key ++
      "\": must be an object"⟩

/-- The `Object.entries` validation loop of `validateState`. -/
def validateEntries :
    List (String × Json) →
      Except StateValidationError (List (String × InstanceMetadata))
  | [] => .ok []
  | (k, v) :: rest =>
      match validateInstanceKey k with
      | .error e => .error e
      | .ok _ =>
          match validateInstanceValue k v with
          | .error e => .error e
          | .ok m =>
              match validateEntries rest with
              | .error e => .error e
              | .ok tail => .ok ((k, m) :: tail)

/-- The `Object.entries` of a JS value used as an object: arrays yield their
elements under stringified index keys. -/
def jsObjectEntries (l : List Json) : List (String × Json) :=
  (l.enum).map (fun p => (toString p.1, p.2))

/-- The `validateState` from `src/state/schema.ts`.  Only truthy values of
`typeof 'object'` (objects and arrays) pass the top-level test; a missing
or non-object `instances` property fails; every entry's key and value are
validated; the checked collection is returned. -/
def validateState (j : Json) : Except StateValidationError DbxState :=
  match j with
  | .obj fl =>
      match jsonGet fl "instances" with
      | some (.obj entries) =>
          match validateEntries entries with
          | .ok l => .ok ⟨l⟩
          | .error e => .error e
      | some (.arr l) =>
          match validateEntries (jsObjectEntries l) with
          | .ok l2 => .ok ⟨l2⟩
          | .error e => .error e
      | some _ => .error ⟨"State must contain an \"instances\" object"⟩
      | none => .error ⟨"State must contain an \"instances\" object"⟩
  | .arr _ => .error ⟨"State must contain an \"instances\" object"⟩
  | _ => .error ⟨"State must be an object"⟩

/-- The JSON image of one record under `JSON.stringify`: the fields in
declaration order, `lastBackup` omitted when absent (as `undefined`
properties are). -/
def encodeMetadata (m : InstanceMetadata) : Json :=
  .obj ([("port", .num m.port), ("dbName", .str m.dbName),
    ("username", .str m.username), ("password", .str m.password),
    ("rootPassword", .str m.rootPassword), ("volume", .str m.volume),
    ("containerName", .str m.containerName),
    ("createdAt", .str m.createdAt)] ++
    (match m.lastBackup with
     | some b => [("lastBackup", .str b)]
     | none => []))

/-- The JSON image of a whole state collection under `JSON.stringify`. -/
def encodeState (s : DbxState) : Json :=
  .obj [("instances",
    .obj (s.instances.map (fun p => (p.1, encodeMetadata p.2))))]

/-- Contents of a state file: a serialized JSON value, or junk on which
`JSON.parse` throws. -/
inductive FileContent
  | json (j : Json)
  | junk (raw : String)

/-- The `readState` from `src/state/manager.ts`, over the state file's
contents; `none` models an absent file (the `access` probe throws and an
empty collection is returned). -/
def readState (file : Option FileContent) :
    Except StateValidationError DbxState :=
  match file with
  | none => .ok createEmptyState
  | some (.junk _) => .error ⟨"Failed to parse state file as JSON"⟩
  | some (.json j) => validateState j

/-- Observable filesystem state of the local `.dbx` directory. -/
structure LocalFs where
  dirExists : Bool
  tempFile : Option FileContent
  stateFile : Option FileContent
  tempMode : Option Nat
  stateMode : Option Nat

/-- Fault injection for the steps of the local `writeState`. -/
structure WriteFaults where
  mkdirFails : Bool
  writeTempFails : Bool
  renameFails : Bool
  chmodFails : Bool
deriving DecidableEq

/-- No step fails. -/
def noWriteFaults : WriteFaults :=
  ⟨false, false, false, false⟩

/-- Only the atomic rename fails. -/
def renameFault : WriteFaults :=
  ⟨false, false, true, false⟩

/-- An empty local filesystem. -/
def emptyLocalFs : LocalFs :=
  ⟨false, none, none, none, none⟩

/-- The `writeState` from `src/state/manager.ts`: ensure the directory,
serialize, write the temp file with mode 600, atomically rename it over
the target, re-assert the target's mode (a failure there is only a
warning).  Returns the outcome and the filesystem left behind.  A failed
`writeFile` is modelled as creating nothing; a failed `rename` leaves the
already-written temp file untouched — the source has no cleanup on that
path. -/
def writeState (state : DbxState) (fs : LocalFs) (faults : WriteFaults) :
    Except StateValidationError Unit × LocalFs :=
  if faults.mkdirFails then
    (.error ⟨"Failed to create state directory"⟩, fs)
  else
    let fs1 := { fs with dirExists := true }
    let content : FileContent := .json (encodeState state)
    if faults.writeTempFails then
      (.error ⟨"Failed to write temp state file"⟩, fs1)
    else
      let fs2 := { fs1 with tempFile := some content, tempMode := some 600 }
      if faults.renameFails then
        (.error ⟨"Failed to rename temp state file"⟩, fs2)
      else
        let fs3 := { fs2 with
          tempFile := none
          tempMode := none
          stateFile := some content
          stateMode := some 600 }
        (.ok (), fs3)

/-- Observable filesystem state of `/var/lib/dbx` on the VPS. -/
structure RemoteFs where
  tempFile : Option FileContent
  stateFile : Option FileContent

/-- Outcome of one remote command as `writeRemoteState` observes it: the
executor either throws (timeout / transport error) or resolves with an
exit code — a non-zero exit does NOT throw
(`SSHClient.exec` resolves it into a result). -/
inductive StepOut
  | throws
  | exits (code : Int)
deriving DecidableEq, Repr

/-- Outcomes of the remote commands `writeRemoteState` runs. -/
structure RemoteWriteOutcomes where
  ensureDirThrows : Bool
  heredoc : StepOut
  chmodTemp : StepOut
  mv : StepOut
  testf : StepOut
  rmCleanup : StepOut
deriving DecidableEq

/-- Result of `writeRemoteState`. -/
inductive RemoteWriteResult
  | ok
  | sshErrorPropagated
  | writeFailed
deriving DecidableEq, Repr

/-- The catch block of `writeRemoteState`: `rm -f` the temp file (its own
failure is swallowed), then throw the write-failed validation error. -/
def remoteWriteCleanup (fs : RemoteFs) (o : RemoteWriteOutcomes) :
    RemoteWriteResult × RemoteFs :=
  match o.rmCleanup with
  | .throws => (.writeFailed, fs)
  | .exits c =>
      (.writeFailed, if c = 0 then { fs with tempFile := none } else fs)

/-- The `writeRemoteState` from `src/state/remote.ts`: ensure the remote
directory (a thrown command there propagates before the try block, with no
cleanup), then inside try: heredoc-write the temp file, chmod it, `mv` it
over the target, `test -f` the target; any THROWN step enters the catch,
which removes the temp file and reports failure.  A step that merely exits
non-zero does not throw, so the try block runs on — in particular a `mv`
that exits non-zero leaves the temp file in place and the function still
reports success. -/
def writeRemoteState (state : DbxState) (fs : RemoteFs)
    (o : RemoteWriteOutcomes) : RemoteWriteResult × RemoteFs :=
  if o.ensureDirThrows then (.sshErrorPropagated, fs)
  else
    let content : FileContent := .json (encodeState state)
    match o.heredoc with
    | .throws => remoteWriteCleanup fs o
    | .exits hcode =>
        let fs1 := if hcode = 0 then { fs with tempFile := some content } else fs
        match o.chmodTemp with
        | .throws => remoteWriteCleanup fs1 o
        | .exits _ =>
            match o.mv with
            | .throws => remoteWriteCleanup fs1 o
            | .exits mcode =>
                let fs2 :=
                  if mcode = 0 then
                    { tempFile := none,
                      stateFile :=
                        (match fs1.tempFile with
                         | some c => some c
                         | none => fs1.stateFile) }
                  else fs1
                match o.testf with
                | .throws => remoteWriteCleanup fs2 o
                | .exits _ => (.ok, fs2)

/-- All remote write steps succeed with exit code 0. -/
def remoteAllOk : RemoteWriteOutcomes :=
  ⟨false, .exits 0, .exits 0, .exits 0, .exits 0, .exits 0⟩

/-- Substring test (the `err.stderr.includes(...)` checks of
`readRemoteState`). -/
def strContains (s pat : String) : Bool :=
  (s.splitOn pat).length != 1

/-- The `readRemoteState` from `src/state/remote.ts`, over the outcome of
`exec("cat /var/lib/dbx/state.json")`: a raised SSH error, or the exit
code paired with the parse view of the resolved result's stdout.  A
non-zero exit yields the empty collection; parse/validation errors of a
zero-exit read are raised; the catch's `SSHCommandError` branches inspect
the error's stderr. -/
def readRemoteState (catOut : Except SSHErrorKind (Int × FileContent)) :
    Except StateValidationError DbxState :=
  match catOut with
  | .ok (code, content) =>
      if code != 0 then .ok createEmptyState
      else
        match content with
        | .junk _ => .error ⟨"Remote state file is corrupted"⟩
        | .json j => validateState j
  | .error e =>
      match e with
      | .cmd _ stderr =>
          if strContains stderr "No such file or directory" then
            .ok createEmptyState
          else if strContains stderr "Permission denied" then
            .error ⟨"Permission denied reading remote state"⟩
          else .error ⟨"Failed to read remote state"⟩
      | _ => .error ⟨"Failed to read remote state"⟩

/-- A state collection holding one record. -/
def sampleState : DbxState :=
  ⟨[("app/dev", sampleMeta)]⟩

/-- The JSON fields of `sampleMeta` (used to build records with a field
removed). -/
def sampleMetaFields : List (String × Json) :=
  [("port", .num 27018), ("dbName", .str "app_dev"),
   ("username", .str "app_dev_user"), ("password", .str "pw"),
   ("rootPassword", .str "rootpw"), ("volume", .str "dbx_app_dev_data"),
   ("containerName", .str "dbx_app_dev"),
   ("createdAt", .str "2025-01-01T00:00:00.000Z")]

/-- A serialized single-record collection with one required field
removed from the record. -/
def stateJsonMissingField (f : String) : Json :=
  .obj [("instances",
    .obj [("app/dev", .obj (sampleMetaFields.filter (fun p => !(p.1 == f))))])]

/-- A record whose port is far below 1024 and whose string fields are all
empty. -/
def invalidButAcceptedMeta : InstanceMetadata :=
  { port := 5
    dbName := ""
    username := ""
    password := ""
    rootPassword := ""
    volume := ""
    containerName := ""
    createdAt := ""
    lastBackup := none }

/-- The structural predicate the amended C9 states: all required fields
present, `port` numeric, the string fields strings, `lastBackup` absent or
a string. -/
def metaFieldsTyped (v : Json) : Bool :=
  match v with
  | .obj fl =>
      (requiredFields.all (fun f => (jsonGet fl f).isSome)) &&
      (match jsonGet fl "port" with
       | some (.num _) => true
       | _ => false) &&
      (stringFields.all (fun f =>
        match jsonGet fl f with
        | some (.str _) => true
        | _ => false)) &&
      (match jsonGet fl "lastBackup" with
       | none => true
       | some (.str _) => true
       | some _ => false)
  | _ => false

end Dbx

namespace Dbx

/-- C1: `reconcileInstanceState` implements the stated resolution policy:
remote-only records are adopted into local state; local-only records are
kept (and pushed to remote) exactly when the named container is running and
deleted otherwise; diverging pairs (port, container name or database name
differ) are resolved by overwriting local with remote and reporting a
conflict; agreeing pairs and absent pairs change no state. -/
theorem reconcile_implements_resolution_policy
    (localState remoteState : DbxState) (project env : String)
    (running : String → Bool) :
    let key := createInstanceKey project env
    let out := reconcileInstanceState localState remoteState project env running
    (∀ r, lookupKey remoteState key = some r → lookupKey localState key = none →
      out = (setKey localState key r, remoteState,
        ⟨true, some "copied-remote-to-local", some r⟩)) ∧
    (∀ l, lookupKey localState key = some l → lookupKey remoteState key = none →
      running l.containerName = true →
      out = (localState, setKey remoteState key l,
        ⟨true, some "copied-local-to-remote", some l⟩)) ∧
    (∀ l, lookupKey localState key = some l → lookupKey remoteState key = none →
      running l.containerName = false →
      out = (eraseKey localState key, remoteState,
        ⟨true, some "removed-stale-local", none⟩)) ∧
    (∀ l r, lookupKey localState key = some l → lookupKey remoteState key = some r →
      hasConflict l r = true →
      out = (setKey localState key r, remoteState,
        ⟨true, some "resolved-conflict-from-remote", some r⟩)) ∧
    (∀ l r, lookupKey localState key = some l → lookupKey remoteState key = some r →
      hasConflict l r = false →
      out = (localState, remoteState, ⟨false, none, some l⟩)) ∧
    (lookupKey localState key = none → lookupKey remoteState key = none →
      out = (localState, remoteState, ⟨false, none, none⟩)) := by
  refine ⟨?_, ?_, ?_, ?_, ?_, ?_⟩ <;>
    intros <;>
    simp_all [reconcileInstanceState]

/-- Witness for C1: a stale local-only record (container not running) is
deleted from local state. -/
theorem reconcile_implements_resolution_policy_witness :
    reconcileInstanceState ⟨[("app/dev", sampleMeta)]⟩ ⟨[]⟩ "app" "dev"
        (fun _ => false) =
      (eraseKey ⟨[("app/dev", sampleMeta)]⟩ "app/dev", ⟨[]⟩,
        ⟨true, some "removed-stale-local", none⟩) :=
  (reconcile_implements_resolution_policy ⟨[("app/dev", sampleMeta)]⟩ ⟨[]⟩
    "app" "dev" (fun _ => false)).2.2.1 sampleMeta rfl rfl rfl

/-! ## Lemmas about the port scan -/

theorem scanPort_some_iff (used : List Int) (port p : Int) :
    scanPort used port = some p ↔
      port ≤ p ∧ p ≤ MAX_PORT ∧ p ∉ used ∧
        ∀ q, port ≤ q → q < p → q ∈ used := by
  induction port using scanPort.induct used with
  | case1 port h hmem ih =>
      rw [scanPort, dif_pos h, if_pos hmem, ih]
      constructor
      · rintro ⟨h1, h2, h3, h4⟩
        refine ⟨by omega, h2, h3, ?_⟩
        intro q hq hqp
        rcases eq_or_lt_of_le hq with rfl | hlt
        · exact hmem
        · exact h4 q (by omega) hqp
      · rintro ⟨h1, h2, h3, h4⟩
        have hne : p ≠ port := fun hEq => h3 (hEq ▸ hmem)
        refine ⟨by omega, h2, h3, fun q hq hqp => h4 q (by omega) hqp⟩
  | case2 port h hmem =>
      rw [scanPort, dif_pos h, if_neg hmem]
      constructor
      · rintro ⟨rfl⟩
        exact ⟨le_refl _, h, hmem, fun q hq hqp => absurd hqp (by omega)⟩
      · rintro ⟨h1, h2, h3, h4⟩
        rcases eq_or_lt_of_le h1 with rfl | hlt
        · rfl
        · exact absurd (h4 port (le_refl _) hlt) hmem
  | case3 port h =>
      rw [scanPort, dif_neg h]
      simp only [false_iff, reduceCtorEq]
      rintro ⟨h1, h2, _, _⟩
      omega

theorem scanPort_none_iff (used : List Int) (port : Int) :
    scanPort used port = none ↔
      ∀ q, port ≤ q → q ≤ MAX_PORT → q ∈ used := by
  induction port using scanPort.induct used with
  | case1 port h hmem ih =>
      rw [scanPort, dif_pos h, if_pos hmem, ih]
      constructor
      · intro h4 q hq hqm
        rcases eq_or_lt_of_le hq with rfl | hlt
        · exact hmem
        · exact h4 q (by omega) hqm
      · intro h4 q hq hqm
        exact h4 q (by omega) hqm
  | case2 port h hmem =>
      rw [scanPort, dif_pos h, if_neg hmem]
      simp only [false_iff, reduceCtorEq, not_forall]
      exact ⟨port, le_refl _, h, hmem⟩
  | case3 port h =>
      rw [scanPort, dif_neg h]
      simp only [true_iff]
      intro q hq hqm
      omega

theorem validatePort_ok_of_in_range (p : Int)
    (hp1 : MIN_PORT ≤ p) (hp2 : p ≤ MAX_PORT) :
    validatePort p = .ok (decide (HIGH_PORT_WARNING ≤ p)) := by
  simp only [validatePort, if_neg (not_lt.mpr hp1), gt_iff_lt,
    if_neg (not_lt.mpr hp2)]

theorem findNextPort_eq_scan (localState remoteState : DbxState)
    (basePort : Int) (hlo : MIN_PORT ≤ basePort) (hhi : basePort ≤ MAX_PORT) :
    findNextPort localState basePort (some remoteState) =
      match scanPort (getAllUsedPorts localState (some remoteState)) basePort with
      | some p => .ok p
      | none =>
        .error ⟨"No available ports: all ports from basePort to 65535 are in use"⟩ := by
  have hvb := validatePort_ok_of_in_range basePort hlo hhi
  cases hscan : scanPort (getAllUsedPorts localState (some remoteState)) basePort with
  | some p =>
      obtain ⟨hp1, hp2, -, -⟩ :=
        (scanPort_some_iff (getAllUsedPorts localState (some remoteState))
          basePort p).mp hscan
      have hvp := validatePort_ok_of_in_range p (le_trans hlo hp1) hp2
      simp only [findNextPort, hvb, hscan, hvp]
      rfl
  | none =>
      simp only [findNextPort, hvb, hscan]
      rfl

/-- C2: with a base port in [1024, 65535], `findNextPort` returns exactly
the smallest port at or above the base port that is recorded in neither
collection; it fails exactly when every port from the base port up to
65535 is in the union of both collections' recorded ports; a free base
port is returned as is; a fully occupied prefix [basePort, basePort+k]
with basePort+k+1 free yields basePort+k+1; and ports at or above the
advisory threshold 65500 still pass validation (the warning flag is set
but allocation succeeds). -/
theorem findNextPort_allocates_smallest_free
    (localState remoteState : DbxState) (basePort : Int)
    (hlo : MIN_PORT ≤ basePort) (hhi : basePort ≤ MAX_PORT) :
    (∀ p, findNextPort localState basePort (some remoteState) = .ok p ↔
        (basePort ≤ p ∧ p ≤ MAX_PORT ∧
          p ∉ getAllUsedPorts localState (some remoteState) ∧
          ∀ q, basePort ≤ q → q < p →
            q ∈ getAllUsedPorts localState (some remoteState))) ∧
    (exceptIsOk (findNextPort localState basePort (some remoteState)) = false ↔
        ∀ q, basePort ≤ q → q ≤ MAX_PORT →
          q ∈ getAllUsedPorts localState (some remoteState)) ∧
    (basePort ∉ getAllUsedPorts localState (some remoteState) →
        findNextPort localState basePort (some remoteState) = .ok basePort) ∧
    (∀ k : Nat,
        (∀ q, basePort ≤ q → q ≤ basePort + k →
          q ∈ getAllUsedPorts localState (some remoteState)) →
        basePort + k + 1 ∉ getAllUsedPorts localState (some remoteState) →
        basePort + k + 1 ≤ MAX_PORT →
        findNextPort localState basePort (some remoteState) =
          .ok (basePort + k + 1)) ∧
    (∀ p, HIGH_PORT_WARNING ≤ p → p ≤ MAX_PORT → validatePort p = .ok true) := by
  have hmain := findNextPort_eq_scan localState remoteState basePort hlo hhi
  refine ⟨?_, ?_, ?_, ?_, ?_⟩
  · intro p
    rw [hmain]
    cases hscan : scanPort (getAllUsedPorts localState (some remoteState)) basePort with
    | some p' =>
        constructor
        · rintro ⟨rfl⟩
          exact (scanPort_some_iff _ _ _).mp hscan
        · intro hrhs
          have h' := (scanPort_some_iff
            (getAllUsedPorts localState (some remoteState)) basePort p).mpr hrhs
          rw [hscan] at h'
          injection h' with h''
          rw [h'']
    | none =>
        simp only [reduceCtorEq, false_iff]
        intro hrhs
        have h' := (scanPort_some_iff
          (getAllUsedPorts localState (some remoteState)) basePort p).mpr hrhs
        rw [hscan] at h'
        cases h'
  · rw [hmain]
    cases hscan : scanPort (getAllUsedPorts localState (some remoteState)) basePort with
    | some p' =>
        simp only [exceptIsOk, Bool.true_eq_false, false_iff]
        intro hall
        have h' := (scanPort_none_iff
          (getAllUsedPorts localState (some remoteState)) basePort).mpr hall
        rw [hscan] at h'
        cases h'
    | none =>
        simp only [exceptIsOk, true_iff]
        exact (scanPort_none_iff _ _).mp hscan
  · intro hfree
    rw [hmain]
    have h' := (scanPort_some_iff
      (getAllUsedPorts localState (some remoteState)) basePort basePort).mpr
      ⟨le_refl _, hhi, hfree, fun q hq1 hq2 => absurd hq2 (by omega)⟩
    rw [h']
  · intro k hall hfree hle
    rw [hmain]
    have h' := (scanPort_some_iff
      (getAllUsedPorts localState (some remoteState)) basePort
      (basePort + k + 1)).mpr
      ⟨by omega, hle, hfree, fun q hq1 hq2 => hall q hq1 (by omega)⟩
    rw [h']
  · intro p hp1 hp2
    rw [validatePort_ok_of_in_range p (by simp only [MIN_PORT, HIGH_PORT_WARNING] at *; omega) hp2]
    simp [hp1]

/-- Witness for C2: with an empty pair of state collections, base port
27017 is itself allocated. -/
theorem findNextPort_allocates_smallest_free_witness :
    findNextPort ⟨[]⟩ 27017 (some ⟨[]⟩) = .ok 27017 :=
  (findNextPort_allocates_smallest_free ⟨[]⟩ ⟨[]⟩ 27017
    (by decide) (by decide)).2.2.1 (by decide)

/-! ## Executor theorems -/

/-- C5: when the connected channel's streams close strictly before the
timer elapses, `exec` resolves a fully populated result (trimmed stdout
and stderr, exit code defaulted to 0 on a null close code) whatever the
exit code is — a non-zero exit is never turned into an error — and, for
behaviours without transport-level error events, the outcome is a
`SSHTimeoutError` exactly when the streams do not close before the timer;
no outcome is ever a `SSHCommandError`. -/
theorem exec_result_and_timeout_discipline (execTimeout : Nat)
    (b : ChannelBehavior) :
    (∀ elapsed o e code, b = .closes elapsed o e code →
      elapsed < execTimeout →
      execChannel true execTimeout b = .ok ⟨o.trim, e.trim, code.getD 0⟩) ∧
    (execErrIsCommand (execChannel true execTimeout b) = false) ∧
    (noTransportError b = true →
      (execErrIsTimeout (execChannel true execTimeout b) = true ↔
        closesBefore b execTimeout = false)) := by
  refine ⟨?_, ?_, ?_⟩
  · rintro elapsed o e code rfl hlt
    simp [execChannel, hlt]
  · cases b with
    | closes t o e c =>
        by_cases h : t < execTimeout <;> simp [execChannel, h, execErrIsCommand]
    | hangs => rfl
    | chanErr m t =>
        by_cases h : t < execTimeout <;> simp [execChannel, h, execErrIsCommand]
    | streamErr m t =>
        by_cases h : t < execTimeout <;> simp [execChannel, h, execErrIsCommand]
  · cases b with
    | closes t o e c =>
        intro _
        by_cases h : t < execTimeout <;>
          simp [execChannel, h, execErrIsTimeout, closesBefore]
    | hangs =>
        intro _
        simp [execChannel, execErrIsTimeout, closesBefore]
    | chanErr m t => simp [noTransportError]
    | streamErr m t => simp [noTransportError]

/-- Witness for C5: a command closing its streams after 5 ms with exit
code 2 resolves into the populated result, not an error. -/
theorem exec_result_and_timeout_discipline_witness :
    execChannel true 120000 (.closes 5 " out " "err" (some 2)) =
      .ok ⟨" out ".trim, "err".trim, 2⟩ :=
  (exec_result_and_timeout_discipline 120000
    (.closes 5 " out " "err" (some 2))).1 5 " out " "err" (some 2) rfl
    (by decide)

/-! ## Retry wrapper theorems -/

theorem execWithRetryGo_ok {outcomes : Nat → AttemptOutcome}
    {maxRetries attempt : Nat} {delays : List Nat} {r : ExecResult}
    (h : outcomes attempt = .ok r) :
    execWithRetryGo outcomes maxRetries attempt delays =
      (.ok r, delays, attempt + 1) := by
  rw [execWithRetryGo, h]

theorem execWithRetryGo_abort {outcomes : Nat → AttemptOutcome}
    {maxRetries attempt : Nat} {delays : List Nat} {e : SSHErrorKind}
    (h : outcomes attempt = .err e)
    (ha : isAuthKind e = true ∨ isCmdKind e = true) :
    execWithRetryGo outcomes maxRetries attempt delays =
      (.error e, delays, attempt + 1) := by
  rw [execWithRetryGo, h]
  rcases ha with ha | ha
  · simp [ha]
  · simp [ha]

theorem execWithRetryGo_retry {outcomes : Nat → AttemptOutcome}
    {maxRetries attempt : Nat} {delays : List Nat} {e : SSHErrorKind}
    (h : outcomes attempt = .err e)
    (h1 : isAuthKind e = false) (h2 : isCmdKind e = false)
    (h3 : attempt < maxRetries) :
    execWithRetryGo outcomes maxRetries attempt delays =
      execWithRetryGo outcomes maxRetries (attempt + 1)
        (delays ++ [retryDelay attempt]) := by
  rw [execWithRetryGo, h]
  simp [h1, h2, h3]

theorem execWithRetryGo_exhaust {outcomes : Nat → AttemptOutcome}
    {maxRetries attempt : Nat} {delays : List Nat} {e : SSHErrorKind}
    (h : outcomes attempt = .err e)
    (h1 : isAuthKind e = false) (h2 : isCmdKind e = false)
    (h3 : ¬ attempt < maxRetries) :
    execWithRetryGo outcomes maxRetries attempt delays =
      (.error e, delays, attempt + 1) := by
  rw [execWithRetryGo, h]
  simp [h1, h2, h3]

/-- C4 counterexample: the wrapper also retries a timeout error (which is
not a connection error): a timeout on the first attempt followed by a
success on the second yields overall success after one 1000 ms backoff
delay and two attempts, refuting "retries only on connection errors". -/
theorem execWithRetry_retries_timeout_error :
    execWithRetry timeoutThenOkOutcomes 3 =
      (.ok ⟨"ok", "", 0⟩, [1000], 2) ∧
    isConnKind (.timeoutErr "cmd timed out") = false := by
  have h0 : timeoutThenOkOutcomes 0 = .err (.timeoutErr "cmd timed out") := rfl
  have h1 : timeoutThenOkOutcomes 1 = .ok ⟨"ok", "", 0⟩ := rfl
  constructor
  · rw [execWithRetry, execWithRetryGo_retry h0 rfl rfl (by omega)]
    simp only [List.nil_append]
    rw [execWithRetryGo_ok h1]
    simp [retryDelay]
  · rfl

/-- C4 amended: the wrapper composes connect+execute+disconnect with up to
four attempts, retrying on every error that is neither an authentication
error nor a command error (connection errors, and likewise timeout and
other SSH errors), waiting 1000 ms, 2000 ms, 4000 ms between attempts:
three connection failures then a success succeeds on the fourth attempt
with exactly that backoff schedule; an authentication failure on the first
attempt aborts after one attempt with no delay, as does a command error;
a first retryable error followed by a success is retried once; and after
four retryable failures the error of the last attempt is surfaced. -/
theorem execWithRetry_backoff_policy :
    (∀ (outcomes : Nat → AttemptOutcome) (r : ExecResult) (m1 m2 m3 : String),
      outcomes 0 = .err (.conn m1) → outcomes 1 = .err (.conn m2) →
      outcomes 2 = .err (.conn m3) → outcomes 3 = .ok r →
      execWithRetry outcomes 3 = (.ok r, [1000, 2000, 4000], 4)) ∧
    (∀ (outcomes : Nat → AttemptOutcome) (m : String),
      outcomes 0 = .err (.auth m) →
      execWithRetry outcomes 3 = (.error (.auth m), [], 1)) ∧
    (∀ (outcomes : Nat → AttemptOutcome) (m s : String),
      outcomes 0 = .err (.cmd m s) →
      execWithRetry outcomes 3 = (.error (.cmd m s), [], 1)) ∧
    (∀ (outcomes : Nat → AttemptOutcome) (e : SSHErrorKind) (r : ExecResult),
      outcomes 0 = .err e → isAuthKind e = false → isCmdKind e = false →
      outcomes 1 = .ok r →
      execWithRetry outcomes 3 = (.ok r, [1000], 2)) ∧
    (∀ (outcomes : Nat → AttemptOutcome) (e0 e1 e2 e3 : SSHErrorKind),
      outcomes 0 = .err e0 → outcomes 1 = .err e1 →
      outcomes 2 = .err e2 → outcomes 3 = .err e3 →
      isAuthKind e0 = false → isCmdKind e0 = false →
      isAuthKind e1 = false → isCmdKind e1 = false →
      isAuthKind e2 = false → isCmdKind e2 = false →
      isAuthKind e3 = false → isCmdKind e3 = false →
      execWithRetry outcomes 3 = (.error e3, [1000, 2000, 4000], 4)) := by
  refine ⟨?_, ?_, ?_, ?_, ?_⟩
  · intro outcomes r m1 m2 m3 h0 h1 h2 h3
    rw [execWithRetry, execWithRetryGo_retry h0 rfl rfl (by omega)]
    simp only [List.nil_append, Nat.zero_add]
    rw [execWithRetryGo_retry h1 rfl rfl (by omega)]
    rw [execWithRetryGo_retry h2 rfl rfl (by omega)]
    rw [execWithRetryGo_ok h3]
    simp [retryDelay]
  · intro outcomes m h
    rw [execWithRetry, execWithRetryGo_abort h (Or.inl rfl)]
  · intro outcomes m s h
    rw [execWithRetry, execWithRetryGo_abort h (Or.inr rfl)]
  · intro outcomes e r h0 h1 h2 h3
    rw [execWithRetry, execWithRetryGo_retry h0 h1 h2 (by omega)]
    simp only [List.nil_append, Nat.zero_add]
    rw [execWithRetryGo_ok h3]
    simp [retryDelay]
  · intro outcomes e0 e1 e2 e3 h0 h1 h2 h3 ha0 hc0 ha1 hc1 ha2 hc2 ha3 hc3
    rw [execWithRetry, execWithRetryGo_retry h0 ha0 hc0 (by omega)]
    simp only [List.nil_append, Nat.zero_add]
    rw [execWithRetryGo_retry h1 ha1 hc1 (by omega)]
    rw [execWithRetryGo_retry h2 ha2 hc2 (by omega)]
    rw [execWithRetryGo_exhaust h3 ha3 hc3 (by omega)]
    simp [retryDelay]

/-- Witness for C4's amended theorem: an authentication failure on the
first attempt aborts after exactly one attempt with no backoff delay. -/
theorem execWithRetry_backoff_policy_witness :
    execWithRetry (fun _ => .err (.auth "key rejected")) 3 =
      (.error (.auth "key rejected"), [], 1) :=
  execWithRetry_backoff_policy.2.1 (fun _ => .err (.auth "key rejected"))
    "key rejected" rfl

/-! ## Readiness-wait theorems -/

/-- C3 (evaluating the failing behaviour): a container observed as stopped
on every poll never surfaces the distinct crashed-container failure — the
crash error thrown inside the try block is swallowed by the surrounding
catch of the same iteration and the wait ends in the generic timeout
failure; indeed no poll trace at all can produce the crashed outcome. -/
theorem waitForMongoReady_crash_swallowed :
    waitForMongoReady (List.replicate 8 stoppedPoll) = .timedOut ∧
    ∀ polls, waitOutcomeIsCrashed (waitForMongoReady polls) = false := by
  constructor
  · rfl
  · intro polls
    induction polls with
    | nil => rfl
    | cons o rest ih =>
        simp only [waitForMongoReady]
        cases h : pollOnce o with
        | ok b =>
            cases b
            · simpa using ih
            · rfl
        | error e => simpa using ih

/-! ## State-store theorems -/

theorem validateInstanceValue_encodeMetadata (key : String)
    (m : InstanceMetadata) :
    validateInstanceValue key (encodeMetadata m) = .ok m := by
  cases m with
  | mk port dbName username password rootPassword volume containerName
      createdAt lastBackup =>
    cases lastBackup <;> rfl

theorem validateEntries_encode (l : List (String × InstanceMetadata))
    (hkeys : ∀ p ∈ l, validateInstanceKey p.1 = .ok ()) :
    validateEntries (l.map (fun p => (p.1, encodeMetadata p.2))) = .ok l := by
  induction l with
  | nil => rfl
  | cons p rest ih =>
      obtain ⟨k, m⟩ := p
      have hk := hkeys (k, m) (List.mem_cons_self _ _)
      have htail := ih (fun q hq => hkeys q (List.mem_cons_of_mem _ hq))
      simp only [List.map_cons, validateEntries]
      rw [hk, validateInstanceValue_encodeMetadata, htail]

theorem validateState_encodeState (s : DbxState)
    (hkeys : ∀ p ∈ s.instances, validateInstanceKey p.1 = .ok ()) :
    validateState (encodeState s) = .ok s := by
  obtain ⟨l⟩ := s
  have h : validateState (encodeState ⟨l⟩) =
      (match validateEntries (l.map (fun p => (p.1, encodeMetadata p.2))) with
       | .ok l2 => .ok (⟨l2⟩ : DbxState)
       | .error e => .error e) := rfl
  rw [h, validateEntries_encode l hkeys]

/-- C6: writing a schema-valid collection (valid keys; the typed model
makes the field types correct by construction) through the local state
store and reading the file back yields the same collection, the empty
collection included. -/
theorem writeState_readState_roundtrip (s : DbxState) (fs : LocalFs)
    (hkeys : ∀ p ∈ s.instances, validateInstanceKey p.1 = .ok ()) :
    (writeState s fs noWriteFaults).1 = .ok () ∧
    readState (writeState s fs noWriteFaults).2.stateFile = .ok s := by
  refine ⟨rfl, ?_⟩
  have h : (writeState s fs noWriteFaults).2.stateFile =
      some (.json (encodeState s)) := rfl
  rw [h]
  show validateState (encodeState s) = .ok s
  exact validateState_encodeState s hkeys

/-- Witness for C6: the empty collection round-trips. -/
theorem writeState_readState_roundtrip_witness :
    (writeState createEmptyState emptyLocalFs noWriteFaults).1 = .ok () ∧
    readState (writeState createEmptyState emptyLocalFs
        noWriteFaults).2.stateFile = .ok createEmptyState :=
  writeState_readState_roundtrip createEmptyState emptyLocalFs
    (by intro p hp; simp [createEmptyState] at hp)

/-- C7: reading an absent state file yields the empty collection, not an
error; unparseable contents and schema-validation failures are hard
`StateValidationError`s; a record missing a required field yields the
error naming exactly that field. -/
theorem readState_error_discipline :
    (readState none = .ok createEmptyState) ∧
    (∀ raw, readState (some (.junk raw)) =
      .error ⟨"Failed to parse state file as JSON"⟩) ∧
    (∀ (j : Json) (e : StateValidationError), validateState j = .error e →
      readState (some (.json j)) = .error e) ∧
    (∀ f ∈ requiredFields,
      readState (some (.json (stateJsonMissingField f))) =
        .error ⟨missingFieldMsg f "app/dev"⟩) := by
  refine ⟨rfl, fun raw => rfl, fun j e h => h, ?_⟩
  intro f hf
  simp only [requiredFields, List.mem_cons, List.not_mem_nil, or_false] at hf
  rcases hf with rfl | rfl | rfl | rfl | rfl | rfl | rfl | rfl <;> rfl

/-- Witness for C7: a record missing its `port` field raises the
validation error naming `port`. -/
theorem readState_error_discipline_witness :
    readState (some (.json (stateJsonMissingField "port"))) =
      .error ⟨missingFieldMsg "port" "app/dev"⟩ :=
  readState_error_discipline.2.2.2 "port" (by simp [requiredFields])

/-- C9 counterexample: a record with port 5 (far below 1024) and an empty
database name passes `validateState` unchanged, so a record that passes
schema validation need not have a port in 1024-65535 nor non-empty string
fields. -/
theorem validateState_accepts_invalid_port_and_empty_strings :
    validateState (encodeState ⟨[("app/dev", invalidButAcceptedMeta)]⟩) =
      .ok ⟨[("app/dev", invalidButAcceptedMeta)]⟩ ∧
    invalidButAcceptedMeta.port < MIN_PORT ∧
    invalidButAcceptedMeta.dbName = "" :=
  ⟨rfl, by decide, rfl⟩

theorem nonStringPred_false {fl : List (String × Json)} {f : String}
    (h : (match jsonGet fl f with
          | some (.str _) => false
          | _ => true) = false) :
    (match jsonGet fl f with
     | some (.str _) => true
     | _ => false) = true := by
  cases hj : jsonGet fl f with
  | none => rw [hj] at h; cases h
  | some j =>
      cases j <;> rw [hj] at h <;> first | rfl | cases h

/-- C9 amended: every record accepted by deserialization plus schema
validation has all required fields present with the checked types (numeric
port, string-typed string fields, optional string `lastBackup`) and a
well-formed key — but the validator checks nothing further: empty string
fields and ports outside 1024-65535 are accepted. -/
theorem validateState_checks_presence_and_types_only :
    (∀ (key : String) (v : Json) (m : InstanceMetadata),
      validateInstanceValue key v = .ok m → metaFieldsTyped v = true) ∧
    (∀ (entries : List (String × Json))
        (l : List (String × InstanceMetadata)),
      validateEntries entries = .ok l →
      ∀ p ∈ entries,
        validateInstanceKey p.1 = .ok () ∧ metaFieldsTyped p.2 = true) ∧
    (validateState (encodeState ⟨[("app/dev", invalidButAcceptedMeta)]⟩) =
        .ok ⟨[("app/dev", invalidButAcceptedMeta)]⟩ ∧
      invalidButAcceptedMeta.port < MIN_PORT ∧
      invalidButAcceptedMeta.dbName = "") := by
  have h1 : ∀ (key : String) (v : Json) (m : InstanceMetadata),
      validateInstanceValue key v = .ok m → metaFieldsTyped v = true := by
    intro key v m h
    cases v with
    | obj fl =>
        simp only [validateInstanceValue] at h
        cases hmf : firstMissingField fl with
        | some f => rw [hmf] at h; cases h
        | none =>
            rw [hmf] at h
            cases hport : jsonGet fl "port" with
            | none => rw [hport] at h; cases h
            | some jp =>
                rw [hport] at h
                cases jp with
                | num n =>
                    cases hns : firstNonStringField fl with
                    | some f => rw [hns] at h; cases h
                    | none =>
                        rw [hns] at h
                        have hreq : requiredFields.all
                            (fun f => (jsonGet fl f).isSome) = true := by
                          rw [List.all_eq_true]
                          intro f hf
                          have := List.find?_eq_none.mp hmf f hf
                          simp only [Option.isNone_iff_eq_none] at this
                          simp [Option.isSome_iff_exists]
                          cases hj : jsonGet fl f
                          · exact absurd hj this
                          · exact ⟨_, rfl⟩
                        have hstr : stringFields.all (fun f =>
                            match jsonGet fl f with
                            | some (.str _) => true
                            | _ => false) = true := by
                          rw [List.all_eq_true]
                          intro f hf
                          have hfind := List.find?_eq_none.mp hns f hf
                          simp only [Bool.not_eq_true] at hfind
                          exact nonStringPred_false hfind
                        cases hlb : jsonGet fl "lastBackup" with
                        | none =>
                            rw [hlb] at h
                            simp [metaFieldsTyped, hreq, hport, hstr, hlb]
                        | some jb =>
                            rw [hlb] at h
                            cases jb with
                            | str b =>
                                simp [metaFieldsTyped, hreq, hport, hstr, hlb]
                            | null => cases h
                            | bool b2 => cases h
                            | num n2 => cases h
                            | arr a2 => cases h
                            | obj o2 => cases h
                | null => cases h
                | bool b => cases h
                | str st => cases h
                | arr a => cases h
                | obj o => cases h
    | arr a => cases h
    | null => cases h
    | bool b => cases h
    | num n => cases h
    | str st => cases h
  refine ⟨h1, ?_, rfl, by decide, rfl⟩
  intro entries
  induction entries with
  | nil => intro l h p hp; cases hp
  | cons q rest ih =>
      intro l h p hp
      obtain ⟨k, v⟩ := q
      simp only [validateEntries] at h
      cases hk : validateInstanceKey k with
      | error e => rw [hk] at h; cases h
      | ok u =>
          rw [hk] at h
          cases hv : validateInstanceValue k v with
          | error e => rw [hv] at h; cases h
          | ok m =>
              rw [hv] at h
              cases htail : validateEntries rest with
              | error e => rw [htail] at h; cases h
              | ok tl =>
                  rcases List.mem_cons.mp hp with rfl | hmem
                  · exact ⟨by cases u; exact hk, h1 k v m hv⟩
                  · exact ih tl htail p hmem

/-- Witness for C9's amended theorem: the sample record's JSON image is
accepted and therefore satisfies the structural typing predicate. -/
theorem validateState_checks_presence_and_types_only_witness :
    metaFieldsTyped (encodeMetadata sampleMeta) = true :=
  validateState_checks_presence_and_types_only.1 "app/dev"
    (encodeMetadata sampleMeta) sampleMeta rfl

/-- C8 counterexample: a failed rename in the local `writeState` reports
the error but leaves the temporary file behind — the local store has no
cleanup path, refuting "the temporary artifact is not left behind" for
every failed write. -/
theorem writeState_failed_rename_leaves_temp :
    (writeState sampleState emptyLocalFs renameFault).1 =
      .error ⟨"Failed to rename temp state file"⟩ ∧
    (writeState sampleState emptyLocalFs renameFault).2.tempFile =
      some (.json (encodeState sampleState)) :=
  ⟨rfl, rfl⟩

/-- C8 amended: both stores serialize the collection, write it to a
sibling temporary path with owner-only permissions and rename it over the
target on success; on a failing write the REMOTE store's catch removes the
temporary file (whenever its cleanup `rm` command exits 0), but the LOCAL
store leaves the temporary file behind when the rename fails. -/
theorem write_temp_rename_discipline :
    (∀ (s : DbxState) (fs : LocalFs),
      writeState s fs noWriteFaults =
        (.ok (), { dirExists := true
                   tempFile := none
                   stateFile := some (.json (encodeState s))
                   tempMode := none
                   stateMode := some 600 })) ∧
    (∀ (s : DbxState) (fs : LocalFs),
      (writeState s fs renameFault).1 =
        .error ⟨"Failed to rename temp state file"⟩ ∧
      (writeState s fs renameFault).2.tempFile =
        some (.json (encodeState s))) ∧
    (∀ (s : DbxState) (fs : RemoteFs) (o : RemoteWriteOutcomes),
      o.ensureDirThrows = false → o.rmCleanup = .exits 0 →
      (writeRemoteState s fs o).1 ≠ .ok →
      (writeRemoteState s fs o).2.tempFile = none) ∧
    (∀ (s : DbxState) (fs : RemoteFs),
      writeRemoteState s fs remoteAllOk =
        (.ok, { tempFile := none
                stateFile := some (.json (encodeState s)) })) := by
  refine ⟨fun s fs => rfl, fun s fs => ⟨rfl, rfl⟩, ?_, fun s fs => rfl⟩
  intro s fs o h1 h2 hne
  obtain ⟨ed, hd, ct, mv, tf, rm⟩ := o
  simp only at h1 h2
  subst h1
  subst h2
  cases hd with
  | throws => simp [writeRemoteState, remoteWriteCleanup]
  | exits hcode =>
      cases ct with
      | throws => simp [writeRemoteState, remoteWriteCleanup]
      | exits c2 =>
          cases mv with
          | throws => simp [writeRemoteState, remoteWriteCleanup]
          | exits mcode =>
              cases tf with
              | throws => simp [writeRemoteState, remoteWriteCleanup]
              | exits c4 =>
                  exact absurd (by simp [writeRemoteState]) hne

/-- Witness for C8's amended theorem: a heredoc write that throws enters
the catch, whose successful `rm` leaves no temporary file behind. -/
theorem write_temp_rename_discipline_witness :
    (writeRemoteState sampleState ⟨none, none⟩
      ⟨false, .throws, .exits 0, .exits 0, .exits 0, .exits 0⟩).2.tempFile =
      none :=
  write_temp_rename_discipline.2.2.1 sampleState ⟨none, none⟩
    ⟨false, .throws, .exits 0, .exits 0, .exits 0, .exits 0⟩ rfl rfl
    (by decide)

/-- C10: whenever the remote `cat` of the state file resolves with a
non-zero exit code — missing file, permission denial or otherwise —
`readRemoteState` returns the empty collection rather than an error; and
the executor never raises a `SSHCommandError`, so the catch branches of
`readRemoteState` that would detect a missing file or raise the
permission-denied hard error from a thrown command error are unreachable
from it. -/
theorem readRemoteState_nonzero_exit_yields_empty :
    (∀ (code : Int) (content : FileContent), code ≠ 0 →
      readRemoteState (.ok (code, content)) = .ok createEmptyState) ∧
    (∀ (connected : Bool) (execTimeout : Nat) (b : ChannelBehavior),
      execErrIsCommand (execChannel connected execTimeout b) = false) := by
  constructor
  · intro code content hc
    simp [readRemoteState, hc]
  · intro connected execTimeout b
    cases connected with
    | false => rfl
    | true =>
        cases b with
        | closes t o e c =>
            by_cases h : t < execTimeout <;>
              simp [execChannel, h, execErrIsCommand]
        | hangs => rfl
        | chanErr m t =>
            by_cases h : t < execTimeout <;>
              simp [execChannel, h, execErrIsCommand]
        | streamErr m t =>
            by_cases h : t < execTimeout <;>
              simp [execChannel, h, execErrIsCommand]

/-- Witness for C10: a permission-denied `cat` (exit code 1) yields the
empty collection, not the permission-denied hard error. -/
theorem readRemoteState_nonzero_exit_yields_empty_witness :
    readRemoteState (.ok (1, .junk "cat: state.json: Permission denied")) =
      .ok createEmptyState :=
  readRemoteState_nonzero_exit_yields_empty.1 1
    (.junk "cat: state.json: Permission denied") (by decide)

end Dbx
